import Mathlib

/-!
# Verification of the kansei_rust rendering-engine core

Shallow embedding of `src/rust-wasm/src` into Lean 4, with theorems settling
the frozen claims about the transform math (`math/matrix4.rs`,
`objects/mesh.rs`), the box geometry factory (`geometries/box_geometry.rs`),
the renderer's lazy resource caching and resize logic
(`core_engine/renderer.rs`), and the orbit camera controller state machine
(`core_engine/camera_controls.rs`).

Modelling conventions:
* `f32` scalars are embedded as exact rationals (`ℚ`); numeric literals such
  as `0.1` become the exact rationals `1/10`.  Floating-point rounding is out
  of scope; all claims here are about the exact algebra of the code.
* The transcendental functions `f32::cos` / `f32::sin` (and the constant
  `std::f32::consts::PI`) have no rational counterpart; everywhere the code
  calls them they are abstracted as explicit function parameters
  `(cs sn : ℚ → ℚ)` and `(pi : ℚ)`.  No theorem below relies on any
  trigonometric identity; concrete instantiations used in counterexamples
  pick values the real `cos`/`sin` take at the corresponding angles.
* GPU objects (`wgpu::Buffer`, `wgpu::BindGroup`, textures, views) are
  embedded as inductive tokens recording what they were created from.
-/

namespace Kansei

/-- Modelled from the spec: `math/vector3.rs` is not under `src/`.
Spec §3: "Vector3 `{x,y,z}`: value type".  Only construction and field
access/update are needed by the code under verification. -/
structure Vector3 where
  x : ℚ
  y : ℚ
  z : ℚ
deriving DecidableEq, Repr

namespace Vector3

/-- Modelled from the spec: `Vector3::new(x, y, z)`. -/
def new (x y z : ℚ) : Vector3 := ⟨x, y, z⟩

end Vector3

/-! ## Matrix4 (`src/rust-wasm/src/math/matrix4.rs`)

The source stores `data: [f32; 16]`.  We embed the flat array as sixteen
named fields `dij`, where `dij` is `data[i * 4 + j]` — i.e. `i` indexes the
group of four written on one line of the source literal.  Under the
column-major reading used by the GPU interface, `dij` is the entry in
column `i`, row `j` of the mathematical matrix. -/
structure Matrix4 where
  d00 : ℚ
  d01 : ℚ
  d02 : ℚ
  d03 : ℚ
  d10 : ℚ
  d11 : ℚ
  d12 : ℚ
  d13 : ℚ
  d20 : ℚ
  d21 : ℚ
  d22 : ℚ
  d23 : ℚ
  d30 : ℚ
  d31 : ℚ
  d32 : ℚ
  d33 : ℚ
deriving DecidableEq, Repr

namespace Matrix4

/-- `Matrix4::identity()` (matrix4.rs:9-18). -/
def identity : Matrix4 :=
  ⟨1, 0, 0, 0,
   0, 1, 0, 0,
   0, 0, 1, 0,
   0, 0, 0, 1⟩

/-- `Matrix4::translation(x, y, z)` (matrix4.rs:50-59). -/
def translation (x y z : ℚ) : Matrix4 :=
  ⟨1, 0, 0, 0,
   0, 1, 0, 0,
   0, 0, 1, 0,
   x, y, z, 1⟩

/-- `Matrix4::rotation_x(angle)` (matrix4.rs:61-72); `c`/`s` are the code's
`angle.cos()` / `angle.sin()`, supplied through the `cs`/`sn` parameters. -/
def rotation_x (cs sn : ℚ → ℚ) (angle : ℚ) : Matrix4 :=
  let c := cs angle
  let s := sn angle
  ⟨1, 0, 0, 0,
   0, c, s, 0,
   0, -s, c, 0,
   0, 0, 0, 1⟩

/-- `Matrix4::rotation_y(angle)` (matrix4.rs:74-85). -/
def rotation_y (cs sn : ℚ → ℚ) (angle : ℚ) : Matrix4 :=
  let c := cs angle
  let s := sn angle
  ⟨c, 0, -s, 0,
   0, 1, 0, 0,
   s, 0, c, 0,
   0, 0, 0, 1⟩

/-- `Matrix4::rotation_z(angle)` (matrix4.rs:87-98). -/
def rotation_z (cs sn : ℚ → ℚ) (angle : ℚ) : Matrix4 :=
  let c := cs angle
  let s := sn angle
  ⟨c, s, 0, 0,
   -s, c, 0, 0,
   0, 0, 1, 0,
   0, 0, 0, 1⟩

/-- `Matrix4::scale(x, y, z)` (matrix4.rs:100-109). -/
def scale (x y z : ℚ) : Matrix4 :=
  ⟨x, 0, 0, 0,
   0, y, 0, 0,
   0, 0, z, 0,
   0, 0, 0, 1⟩

/-- `Matrix4::multiply(&self, other)` (matrix4.rs:111-123):
`result[i*4+j] = Σ_k self.data[i*4+k] * other.data[k*4+j]`, with the
`k`-loop unrolled. -/
def multiply (a b : Matrix4) : Matrix4 :=
  ⟨a.d00 * b.d00 + a.d01 * b.d10 + a.d02 * b.d20 + a.d03 * b.d30,
   a.d00 * b.d01 + a.d01 * b.d11 + a.d02 * b.d21 + a.d03 * b.d31,
   a.d00 * b.d02 + a.d01 * b.d12 + a.d02 * b.d22 + a.d03 * b.d32,
   a.d00 * b.d03 + a.d01 * b.d13 + a.d02 * b.d23 + a.d03 * b.d33,
   a.d10 * b.d00 + a.d11 * b.d10 + a.d12 * b.d20 + a.d13 * b.d30,
   a.d10 * b.d01 + a.d11 * b.d11 + a.d12 * b.d21 + a.d13 * b.d31,
   a.d10 * b.d02 + a.d11 * b.d12 + a.d12 * b.d22 + a.d13 * b.d32,
   a.d10 * b.d03 + a.d11 * b.d13 + a.d12 * b.d23 + a.d13 * b.d33,
   a.d20 * b.d00 + a.d21 * b.d10 + a.d22 * b.d20 + a.d23 * b.d30,
   a.d20 * b.d01 + a.d21 * b.d11 + a.d22 * b.d21 + a.d23 * b.d31,
   a.d20 * b.d02 + a.d21 * b.d12 + a.d22 * b.d22 + a.d23 * b.d32,
   a.d20 * b.d03 + a.d21 * b.d13 + a.d22 * b.d23 + a.d23 * b.d33,
   a.d30 * b.d00 + a.d31 * b.d10 + a.d32 * b.d20 + a.d33 * b.d30,
   a.d30 * b.d01 + a.d31 * b.d11 + a.d32 * b.d21 + a.d33 * b.d31,
   a.d30 * b.d02 + a.d31 * b.d12 + a.d32 * b.d22 + a.d33 * b.d32,
   a.d30 * b.d03 + a.d31 * b.d13 + a.d32 * b.d23 + a.d33 * b.d33⟩

/-- Mathematical matrix product under the column-vector, column-major
convention: `(mathMul a b)` is the data array of `A · B` where `A`, `B` are
the matrices whose entry in row `r`, column `c` is `data[c*4+r]`.  So
`(mathMul a b).dij = Σ_k a.d⟨k,j⟩ * b.d⟨i,k⟩`.  This is the reference
definition against which the claimed composition order is checked. -/
def mathMul (a b : Matrix4) : Matrix4 :=
  ⟨a.d00 * b.d00 + a.d10 * b.d01 + a.d20 * b.d02 + a.d30 * b.d03,
   a.d01 * b.d00 + a.d11 * b.d01 + a.d21 * b.d02 + a.d31 * b.d03,
   a.d02 * b.d00 + a.d12 * b.d01 + a.d22 * b.d02 + a.d32 * b.d03,
   a.d03 * b.d00 + a.d13 * b.d01 + a.d23 * b.d02 + a.d33 * b.d03,
   a.d00 * b.d10 + a.d10 * b.d11 + a.d20 * b.d12 + a.d30 * b.d13,
   a.d01 * b.d10 + a.d11 * b.d11 + a.d21 * b.d12 + a.d31 * b.d13,
   a.d02 * b.d10 + a.d12 * b.d11 + a.d22 * b.d12 + a.d32 * b.d13,
   a.d03 * b.d10 + a.d13 * b.d11 + a.d23 * b.d12 + a.d33 * b.d13,
   a.d00 * b.d20 + a.d10 * b.d21 + a.d20 * b.d22 + a.d30 * b.d23,
   a.d01 * b.d20 + a.d11 * b.d21 + a.d21 * b.d22 + a.d31 * b.d23,
   a.d02 * b.d20 + a.d12 * b.d21 + a.d22 * b.d22 + a.d32 * b.d23,
   a.d03 * b.d20 + a.d13 * b.d21 + a.d23 * b.d22 + a.d33 * b.d23,
   a.d00 * b.d30 + a.d10 * b.d31 + a.d20 * b.d32 + a.d30 * b.d33,
   a.d01 * b.d30 + a.d11 * b.d31 + a.d21 * b.d32 + a.d31 * b.d33,
   a.d02 * b.d30 + a.d12 * b.d31 + a.d22 * b.d32 + a.d32 * b.d33,
   a.d03 * b.d30 + a.d13 * b.d31 + a.d23 * b.d32 + a.d33 * b.d33⟩

/-- The index-juggling in `Matrix4::multiply` makes `a.multiply(b)` compute
the mathematical product `B · A` (not `A · B`) under the column-vector,
column-major reading of the data array. -/
theorem multiply_eq_mathMul_swap (a b : Matrix4) :
    multiply a b = mathMul b a := by
  cases a
  cases b
  simp only [multiply, mathMul, Matrix4.mk.injEq]
  refine ⟨?_, ?_, ?_, ?_, ?_, ?_, ?_, ?_, ?_, ?_, ?_, ?_, ?_, ?_, ?_, ?_⟩ <;> ring

end Matrix4

section MatrixClaims

open Matrix4

/-- **C10.** `Matrix4::identity()` is a two-sided identity for
`Matrix4::multiply`: for every matrix `m`, `identity().multiply(&m) = m` and
`m.multiply(&identity()) = m`. -/
theorem identity_is_two_sided_identity (m : Matrix4) :
    multiply identity m = m ∧ multiply m identity = m := by
  cases m
  constructor <;>
    · simp only [multiply, identity, Matrix4.mk.injEq]
      refine ⟨?_, ?_, ?_, ?_, ?_, ?_, ?_, ?_, ?_, ?_, ?_, ?_, ?_, ?_, ?_, ?_⟩ <;> ring

end MatrixClaims

/-! ## Geometry and Mesh (`geometries/`, `objects/mesh.rs`) -/

/-- `Vertex` (spec §3; `geometries/geometry.rs` is not under `src/`).
Modelled from the spec: "Vertex `{position[3], normal[3], uv[2], color[3]}`:
plain data, no behavior." -/
structure Vertex where
  position : ℚ × ℚ × ℚ
  normal : ℚ × ℚ × ℚ
  uv : ℚ × ℚ
  color : ℚ × ℚ × ℚ
deriving DecidableEq, Repr

/-- `Geometry` (spec §3; `geometries/geometry.rs` is not under `src/`).
Modelled from the spec: "Geometry `{vertices: ordered sequence<Vertex>,
indices: ordered sequence<uint>}`: immutable once constructed." -/
structure Geometry where
  vertices : List Vertex
  indices : List ℕ
deriving DecidableEq, Repr

namespace Geometry

/-- Modelled from the spec: `Geometry::new(vertices, indices)` packages the
two sequences (the constructor used by `BoxGeometry::new`). -/
def new (vertices : List Vertex) (indices : List ℕ) : Geometry :=
  ⟨vertices, indices⟩

end Geometry

/-- GPU buffer handle, embedded as a token recording what the buffer was
created from (`device.create_buffer_init` contents in
`Mesh::create_buffers`, or the plain uniform buffer of `Renderer::render`). -/
inductive GpuBuffer where
  | vertexInit (contents : List Vertex)
  | indexInit (contents : List ℕ)
  | uniformBuf
deriving DecidableEq, Repr

/-- Bind group handle: one entry, binding 0, pointing at a buffer
(`Renderer::render`, renderer.rs:216-223). -/
structure BindGroup where
  binding0 : GpuBuffer
deriving DecidableEq, Repr

/-- `Mesh` (mesh.rs:7-17). -/
structure Mesh where
  position : Vector3
  rotation : Vector3
  scale : Vector3
  visible : Bool
  geometry : Geometry
  vertex_buffer : Option GpuBuffer
  index_buffer : Option GpuBuffer
  uniform_buffer : Option GpuBuffer
  bind_group : Option BindGroup
deriving DecidableEq, Repr

namespace Mesh

/-- `Mesh::new(geometry)` (mesh.rs:21-33). -/
def new (geometry : Geometry) : Mesh :=
  { position := Vector3.new 0 0 0
    rotation := Vector3.new 0 0 0
    scale := Vector3.new 1 1 1
    visible := true
    geometry := geometry
    vertex_buffer := none
    index_buffer := none
    uniform_buffer := none
    bind_group := none }

/-- `Mesh::create_buffers(&mut self, device)` (mesh.rs:36-48). -/
def create_buffers (m : Mesh) : Mesh :=
  { m with
    vertex_buffer := some (.vertexInit m.geometry.vertices)
    index_buffer := some (.indexInit m.geometry.indices) }

/-- `Mesh::model_matrix(&self)` (mesh.rs:51-63). -/
def model_matrix (cs sn : ℚ → ℚ) (m : Mesh) : Matrix4 :=
  let translation := Matrix4.translation m.position.x m.position.y m.position.z
  let rotation_x := Matrix4.rotation_x cs sn m.rotation.x
  let rotation_y := Matrix4.rotation_y cs sn m.rotation.y
  let rotation_z := Matrix4.rotation_z cs sn m.rotation.z
  let scale := Matrix4.scale m.scale.x m.scale.y m.scale.z
  ((((translation.multiply rotation_y).multiply rotation_x).multiply
      rotation_z).multiply scale)

end Mesh

/-! ## The glam path used by the renderer (`Mesh::model_matrix_glam`)

`mesh.rs` builds the per-mesh model uniform with the `glam` crate:
`Quat::from_euler(EulerRot::XYZ, rx, ry, rz)` then
`Mat4::from_scale_rotation_translation(scale, rotation, translation)`.
The relevant glam internals are embedded below, with `f32::sin_cos` again
abstracted as the `cs`/`sn` parameters. -/
namespace Glam

/-- `glam::Quat` stored as `(x, y, z, w)`. -/
structure Quat where
  x : ℚ
  y : ℚ
  z : ℚ
  w : ℚ
deriving DecidableEq, Repr

namespace Quat

/-- `Quat::from_rotation_x(angle)`: `(s, c) = (angle * 0.5).sin_cos()`,
result `(s, 0, 0, c)`. -/
def from_rotation_x (cs sn : ℚ → ℚ) (angle : ℚ) : Quat :=
  ⟨sn (angle * (1 / 2)), 0, 0, cs (angle * (1 / 2))⟩

/-- `Quat::from_rotation_y(angle)`: result `(0, s, 0, c)`. -/
def from_rotation_y (cs sn : ℚ → ℚ) (angle : ℚ) : Quat :=
  ⟨0, sn (angle * (1 / 2)), 0, cs (angle * (1 / 2))⟩

/-- `Quat::from_rotation_z(angle)`: result `(0, 0, s, c)`. -/
def from_rotation_z (cs sn : ℚ → ℚ) (angle : ℚ) : Quat :=
  ⟨0, 0, sn (angle * (1 / 2)), cs (angle * (1 / 2))⟩

/-- `Quat::mul_quat` (Hamilton product). -/
def mul (a b : Quat) : Quat :=
  ⟨a.w * b.x + a.x * b.w + a.y * b.z - a.z * b.y,
   a.w * b.y + a.y * b.w + a.z * b.x - a.x * b.z,
   a.w * b.z + a.z * b.w + a.x * b.y - a.y * b.x,
   a.w * b.w - a.x * b.x - a.y * b.y - a.z * b.z⟩

/-- `Quat::from_euler(EulerRot::XYZ, a, b, c)`: intrinsic X-Y-Z, i.e. the
product `from_rotation_x(a) * from_rotation_y(b) * from_rotation_z(c)`
(all glam EulerRot conventions agree with this at zero rotation). -/
def from_euler_xyz (cs sn : ℚ → ℚ) (a b c : ℚ) : Quat :=
  mul (mul (from_rotation_x cs sn a) (from_rotation_y cs sn b))
    (from_rotation_z cs sn c)

end Quat

/-- `Mat4::from_scale_rotation_translation(scale, rotation, translation)`:
quaternion-to-axes expansion, each axis column scaled by the corresponding
scale component, fourth column `(t, 1)`.  The result is returned in the same
flat column-major layout as `Matrix4.data` (this is what
`to_cols_array_2d()` uploads). -/
def from_scale_rotation_translation (s : Vector3) (r : Quat) (t : Vector3) :
    Matrix4 :=
  let x2 := r.x + r.x
  let y2 := r.y + r.y
  let z2 := r.z + r.z
  let xx := r.x * x2
  let xy := r.x * y2
  let xz := r.x * z2
  let yy := r.y * y2
  let yz := r.y * z2
  let zz := r.z * z2
  let wx := r.w * x2
  let wy := r.w * y2
  let wz := r.w * z2
  ⟨(1 - (yy + zz)) * s.x, (xy + wz) * s.x, (xz - wy) * s.x, 0 * s.x,
   (xy - wz) * s.y, (1 - (xx + zz)) * s.y, (yz + wx) * s.y, 0 * s.y,
   (xz + wy) * s.z, (yz - wx) * s.z, (1 - (xx + yy)) * s.z, 0 * s.z,
   t.x, t.y, t.z, 1⟩

end Glam

namespace Mesh

/-- `Mesh::model_matrix_glam(&self)` (mesh.rs:76-82). -/
def model_matrix_glam (cs sn : ℚ → ℚ) (m : Mesh) : Matrix4 :=
  Glam.from_scale_rotation_translation m.scale
    (Glam.Quat.from_euler_xyz cs sn m.rotation.x m.rotation.y m.rotation.z)
    m.position

end Mesh

/-! ## Claims C1 and C2: model matrix composition order and glam parity -/

/-- Trig stand-in taking the value the real cosine takes at angle `0`. -/
def csOne : ℚ → ℚ := fun _ => 1

/-- Trig stand-in taking the value the real sine takes at angle `0`. -/
def snZero : ℚ → ℚ := fun _ => 0

/-- A mesh with position `(1,0,0)`, rotation `(0,0,0)`, scale `(2,1,1)`. -/
def demoMeshA : Mesh :=
  { position := ⟨1, 0, 0⟩
    rotation := ⟨0, 0, 0⟩
    scale := ⟨2, 1, 1⟩
    visible := true
    geometry := ⟨[], []⟩
    vertex_buffer := none
    index_buffer := none
    uniform_buffer := none
    bind_group := none }

/-- **C1 (counterexample).** At position `(1,0,0)`, rotation `(0,0,0)`,
scale `(2,1,1)` (where `cos = 1` and `sin = 0` hold exactly, also in `f32`),
`Mesh::model_matrix()` is not the composition
`Translation · RotY · RotX · RotZ · Scale` under the column-vector,
column-major convention: the code's translation column is `(2,0,0)`, the
claimed composition's is `(1,0,0)`. -/
theorem model_matrix_claimed_order_counterexample :
    Mesh.model_matrix csOne snZero demoMeshA ≠
      Matrix4.mathMul (Matrix4.translation 1 0 0)
        (Matrix4.mathMul (Matrix4.rotation_y csOne snZero 0)
          (Matrix4.mathMul (Matrix4.rotation_x csOne snZero 0)
            (Matrix4.mathMul (Matrix4.rotation_z csOne snZero 0)
              (Matrix4.scale 2 1 1)))) := by
  intro h
  have h30 := congrArg Matrix4.d30 h
  simp only [Mesh.model_matrix, demoMeshA, csOne, snZero, Matrix4.multiply,
    Matrix4.mathMul, Matrix4.translation, Matrix4.rotation_x,
    Matrix4.rotation_y, Matrix4.rotation_z, Matrix4.scale] at h30
  norm_num at h30

/-- **C1 (amended).** For every position, rotation and scale (and any values
of the trig primitives), `Mesh::model_matrix()` returns, under the
column-vector, column-major convention, the composition
`Scale(scale) · RotationZ(rotation.z) · RotationX(rotation.x) ·
RotationY(rotation.y) · Translation(position)` — the mirror image of the
claimed order, because `Matrix4::multiply` computes `B · A` under that
convention.  In particular the matrix does not decompose back to
`position`: its translation column is `S·Rz·Rx·Ry` applied to `position`. -/
theorem model_matrix_composition_order (cs sn : ℚ → ℚ) (m : Mesh) :
    Mesh.model_matrix cs sn m =
      Matrix4.mathMul (Matrix4.scale m.scale.x m.scale.y m.scale.z)
        (Matrix4.mathMul (Matrix4.rotation_z cs sn m.rotation.z)
          (Matrix4.mathMul (Matrix4.rotation_x cs sn m.rotation.x)
            (Matrix4.mathMul (Matrix4.rotation_y cs sn m.rotation.y)
              (Matrix4.translation m.position.x m.position.y m.position.z)))) := by
  simp only [Mesh.model_matrix]
  rw [Matrix4.multiply_eq_mathMul_swap, Matrix4.multiply_eq_mathMul_swap,
    Matrix4.multiply_eq_mathMul_swap, Matrix4.multiply_eq_mathMul_swap]

/-- **C2 (counterexample).** At position `(1,0,0)`, rotation `(0,0,0)`,
scale `(2,1,1)` (`cos = 1`, `sin = 0`, exact also in `f32`),
`Mesh::model_matrix()` and `Mesh::model_matrix_glam()` differ:
`model_matrix` yields translation column `(2,0,0)` (scale applied after
translation) while the glam matrix — the one `Renderer::render` uploads —
yields `(1,0,0)`. -/
theorem model_matrix_glam_counterexample :
    Mesh.model_matrix csOne snZero demoMeshA ≠
      Mesh.model_matrix_glam csOne snZero demoMeshA := by
  intro h
  have h30 := congrArg Matrix4.d30 h
  simp only [Mesh.model_matrix, Mesh.model_matrix_glam, demoMeshA, csOne,
    snZero, Matrix4.multiply, Matrix4.translation, Matrix4.rotation_x,
    Matrix4.rotation_y, Matrix4.rotation_z, Matrix4.scale,
    Glam.from_scale_rotation_translation, Glam.Quat.from_euler_xyz,
    Glam.Quat.from_rotation_x, Glam.Quat.from_rotation_y,
    Glam.Quat.from_rotation_z, Glam.Quat.mul] at h30
  norm_num at h30

/-- **C2 (amended).** `Mesh::model_matrix()` and `Mesh::model_matrix_glam()`
do not produce the same matrix in general; they agree on pure translations:
whenever `rotation = (0,0,0)` and `scale = (1,1,1)` (with the trig
primitives taking their real values `cos 0 = 1`, `sin 0 = 0`), both equal
the plain translation matrix, for every position. -/
theorem model_matrix_glam_agree_on_pure_translation (cs sn : ℚ → ℚ)
    (hc : cs 0 = 1) (hs : sn 0 = 0) (m : Mesh)
    (hrot : m.rotation = ⟨0, 0, 0⟩) (hscale : m.scale = ⟨1, 1, 1⟩) :
    Mesh.model_matrix cs sn m = Mesh.model_matrix_glam cs sn m := by
  simp only [Mesh.model_matrix, Mesh.model_matrix_glam, hrot, hscale,
    Glam.Quat.from_euler_xyz, Glam.Quat.from_rotation_x,
    Glam.Quat.from_rotation_y, Glam.Quat.from_rotation_z, Glam.Quat.mul,
    Glam.from_scale_rotation_translation, Matrix4.translation,
    Matrix4.rotation_x, Matrix4.rotation_y, Matrix4.rotation_z,
    Matrix4.scale, Matrix4.multiply]
  norm_num [hc, hs]

/-- Witness for the amended C2 at `position = (3,4,5)`. -/
theorem model_matrix_glam_agree_witness :
    csOne 0 = 1 ∧ snZero 0 = 0 ∧
      Mesh.model_matrix csOne snZero (Mesh.new ⟨[], []⟩) =
        Mesh.model_matrix_glam csOne snZero (Mesh.new ⟨[], []⟩) :=
  ⟨rfl, rfl,
    model_matrix_glam_agree_on_pure_translation csOne snZero rfl rfl
      (Mesh.new ⟨[], []⟩) rfl rfl⟩

/-! ## Box geometry (`geometries/box_geometry.rs`) -/

namespace BoxGeometry

/-- `BoxGeometry::new(width, height, depth)` (box_geometry.rs:7-60). -/
def new (width height depth : ℚ) : Geometry :=
  let hw := width / 2
  let hh := height / 2
  let hd := depth / 2
  Geometry.new
    [ -- Front face (z+)
      ⟨(-hw, -hh, hd), (0, 0, 1), (0, 1), (1, 0, 0)⟩,
      ⟨(hw, -hh, hd), (0, 0, 1), (1, 1), (1, 0, 0)⟩,
      ⟨(hw, hh, hd), (0, 0, 1), (1, 0), (1, 0, 0)⟩,
      ⟨(-hw, hh, hd), (0, 0, 1), (0, 0), (1, 0, 0)⟩,
      -- Back face (z-)
      ⟨(hw, -hh, -hd), (0, 0, -1), (0, 1), (0, 1, 0)⟩,
      ⟨(-hw, -hh, -hd), (0, 0, -1), (1, 1), (0, 1, 0)⟩,
      ⟨(-hw, hh, -hd), (0, 0, -1), (1, 0), (0, 1, 0)⟩,
      ⟨(hw, hh, -hd), (0, 0, -1), (0, 0), (0, 1, 0)⟩,
      -- Top face (y+)
      ⟨(-hw, hh, hd), (0, 1, 0), (0, 1), (0, 0, 1)⟩,
      ⟨(hw, hh, hd), (0, 1, 0), (1, 1), (0, 0, 1)⟩,
      ⟨(hw, hh, -hd), (0, 1, 0), (1, 0), (0, 0, 1)⟩,
      ⟨(-hw, hh, -hd), (0, 1, 0), (0, 0), (0, 0, 1)⟩,
      -- Bottom face (y-)
      ⟨(-hw, -hh, -hd), (0, -1, 0), (0, 1), (1, 1, 0)⟩,
      ⟨(hw, -hh, -hd), (0, -1, 0), (1, 1), (1, 1, 0)⟩,
      ⟨(hw, -hh, hd), (0, -1, 0), (1, 0), (1, 1, 0)⟩,
      ⟨(-hw, -hh, hd), (0, -1, 0), (0, 0), (1, 1, 0)⟩,
      -- Right face (x+)
      ⟨(hw, -hh, hd), (1, 0, 0), (0, 1), (1, 0, 1)⟩,
      ⟨(hw, -hh, -hd), (1, 0, 0), (1, 1), (1, 0, 1)⟩,
      ⟨(hw, hh, -hd), (1, 0, 0), (1, 0), (1, 0, 1)⟩,
      ⟨(hw, hh, hd), (1, 0, 0), (0, 0), (1, 0, 1)⟩,
      -- Left face (x-)
      ⟨(-hw, -hh, -hd), (-1, 0, 0), (0, 1), (0, 1, 1)⟩,
      ⟨(-hw, -hh, hd), (-1, 0, 0), (1, 1), (0, 1, 1)⟩,
      ⟨(-hw, hh, hd), (-1, 0, 0), (1, 0), (0, 1, 1)⟩,
      ⟨(-hw, hh, -hd), (-1, 0, 0), (0, 0), (0, 1, 1)⟩ ]
    [0, 1, 2, 0, 2, 3,
     4, 5, 6, 4, 6, 7,
     8, 9, 10, 8, 10, 11,
     12, 13, 14, 12, 14, 15,
     16, 17, 18, 16, 18, 19,
     20, 21, 22, 20, 22, 23]

end BoxGeometry

/-! Vector helpers used to state the winding/orientation property. -/

/-- Componentwise difference of 3-tuples. -/
def sub3 (a b : ℚ × ℚ × ℚ) : ℚ × ℚ × ℚ :=
  (a.1 - b.1, a.2.1 - b.2.1, a.2.2 - b.2.2)

/-- Componentwise sum of 3-tuples. -/
def add3 (a b : ℚ × ℚ × ℚ) : ℚ × ℚ × ℚ :=
  (a.1 + b.1, a.2.1 + b.2.1, a.2.2 + b.2.2)

/-- Dot product of 3-tuples. -/
def dot3 (a b : ℚ × ℚ × ℚ) : ℚ :=
  a.1 * b.1 + a.2.1 * b.2.1 + a.2.2 * b.2.2

/-- Cross product of 3-tuples. -/
def cross3 (a b : ℚ × ℚ × ℚ) : ℚ × ℚ × ℚ :=
  (a.2.1 * b.2.2 - a.2.2 * b.2.1,
   a.2.2 * b.1 - a.1 * b.2.2,
   a.1 * b.2.1 - a.2.1 * b.1)

/-- Placeholder vertex used as the (never reached, for in-range indices)
lookup default. -/
def defaultVertex : Vertex := ⟨(0, 0, 0), (0, 0, 0), (0, 0), (0, 0, 0)⟩

/-- Triangle `j` of a triangle-list geometry has counter-clockwise winding
with its front toward the stored vertex normal, and that normal points
outward (away from the origin-centered solid): the geometric triangle
normal `(b-a) × (c-a)` has positive dot product with the stored normal, and
the stored normal has positive dot product with the triangle's vertex sum
(the centroid direction). -/
def triangleCCWOutward (g : Geometry) (j : ℕ) : Prop :=
  0 < dot3
      (cross3
        (sub3 (g.vertices.getD (g.indices.getD (3 * j + 1) 0)
            defaultVertex).position
          (g.vertices.getD (g.indices.getD (3 * j) 0) defaultVertex).position)
        (sub3 (g.vertices.getD (g.indices.getD (3 * j + 2) 0)
            defaultVertex).position
          (g.vertices.getD (g.indices.getD (3 * j) 0) defaultVertex).position))
      (g.vertices.getD (g.indices.getD (3 * j) 0) defaultVertex).normal ∧
  0 < dot3 (g.vertices.getD (g.indices.getD (3 * j) 0) defaultVertex).normal
      (add3
        (add3 (g.vertices.getD (g.indices.getD (3 * j) 0)
            defaultVertex).position
          (g.vertices.getD (g.indices.getD (3 * j + 1) 0)
            defaultVertex).position)
        (g.vertices.getD (g.indices.getD (3 * j + 2) 0)
          defaultVertex).position)

/-- Counter-clockwise winding, front faces outward, for every triangle. -/
def ccwOutward (g : Geometry) : Prop :=
  ∀ j, j < g.indices.length / 3 → triangleCCWOutward g j

/-- **C8 (counterexample).** At `(width, height, depth) = (-2, 2, 2)` the
box's counts still hold but the winding is clockwise (the first front-face
triangle's geometric normal is `(0,0,-4)`, opposite its stored normal
`(0,0,1)`), so "for every width, height and depth ... counter-clockwise
winding and front faces outward" fails. -/
theorem box_geometry_ccw_counterexample :
    ¬ ccwOutward (BoxGeometry.new (-2) 2 2) := by
  intro hccw
  have h0 := hccw 0 (by norm_num [BoxGeometry.new, Geometry.new])
  simp only [triangleCCWOutward, BoxGeometry.new, Geometry.new] at h0
  norm_num [List.getD, sub3, add3, dot3, cross3] at h0

/-- The six axis-aligned face normals of the box, one per face. -/
def boxFaceNormals : List (ℚ × ℚ × ℚ) :=
  [(0, 0, 1), (0, 0, -1), (0, 1, 0), (0, -1, 0), (1, 0, 0), (-1, 0, 0)]

/-- Introduction rule for `triangleCCWOutward` with the looked-up corner
positions and normal given explicitly. -/
theorem triangleCCWOutward_intro (g : Geometry) (j : ℕ)
    (pa pb pc na : ℚ × ℚ × ℚ)
    (ha : (g.vertices.getD (g.indices.getD (3 * j) 0)
      defaultVertex).position = pa)
    (hb : (g.vertices.getD (g.indices.getD (3 * j + 1) 0)
      defaultVertex).position = pb)
    (hc : (g.vertices.getD (g.indices.getD (3 * j + 2) 0)
      defaultVertex).position = pc)
    (hn : (g.vertices.getD (g.indices.getD (3 * j) 0)
      defaultVertex).normal = na)
    (h1 : 0 < dot3 (cross3 (sub3 pb pa) (sub3 pc pa)) na)
    (h2 : 0 < dot3 na (add3 (add3 pa pb) pc)) :
    triangleCCWOutward g j := by
  unfold triangleCCWOutward
  rw [ha, hb, hc, hn]
  exact ⟨h1, h2⟩

set_option maxHeartbeats 1600000 in
/-- **C8 (amended).** For every width, height and depth, `BoxGeometry::new`
returns a geometry with exactly 24 vertices and 36 indices, every index
strictly less than 24, and exactly 6 distinct face normals each shared by
exactly 4 vertices (the six pairwise-distinct axis normals cover every
vertex and each occurs exactly 4 times); when width, height and depth are
all positive the winding is counter-clockwise with front faces outward (for
non-positive dimensions the orientation flips or degenerates). -/
theorem box_geometry_counts_and_winding (width height depth : ℚ) :
    (BoxGeometry.new width height depth).vertices.length = 24 ∧
    (BoxGeometry.new width height depth).indices.length = 36 ∧
    (∀ i ∈ (BoxGeometry.new width height depth).indices, i < 24) ∧
    boxFaceNormals.Nodup ∧ boxFaceNormals.length = 6 ∧
    (∀ v ∈ (BoxGeometry.new width height depth).vertices,
      v.normal ∈ boxFaceNormals) ∧
    (∀ n ∈ boxFaceNormals,
      ((BoxGeometry.new width height depth).vertices.map
          Vertex.normal).count n = 4) ∧
    (0 < width → 0 < height → 0 < depth →
      ccwOutward (BoxGeometry.new width height depth)) := by
  have hverts : (BoxGeometry.new width height depth).vertices =
      [⟨(-(width / 2), -(height / 2), depth / 2), (0, 0, 1), (0, 1), (1, 0, 0)⟩,
       ⟨(width / 2, -(height / 2), depth / 2), (0, 0, 1), (1, 1), (1, 0, 0)⟩,
       ⟨(width / 2, height / 2, depth / 2), (0, 0, 1), (1, 0), (1, 0, 0)⟩,
       ⟨(-(width / 2), height / 2, depth / 2), (0, 0, 1), (0, 0), (1, 0, 0)⟩,
       ⟨(width / 2, -(height / 2), -(depth / 2)), (0, 0, -1), (0, 1), (0, 1, 0)⟩,
       ⟨(-(width / 2), -(height / 2), -(depth / 2)), (0, 0, -1), (1, 1), (0, 1, 0)⟩,
       ⟨(-(width / 2), height / 2, -(depth / 2)), (0, 0, -1), (1, 0), (0, 1, 0)⟩,
       ⟨(width / 2, height / 2, -(depth / 2)), (0, 0, -1), (0, 0), (0, 1, 0)⟩,
       ⟨(-(width / 2), height / 2, depth / 2), (0, 1, 0), (0, 1), (0, 0, 1)⟩,
       ⟨(width / 2, height / 2, depth / 2), (0, 1, 0), (1, 1), (0, 0, 1)⟩,
       ⟨(width / 2, height / 2, -(depth / 2)), (0, 1, 0), (1, 0), (0, 0, 1)⟩,
       ⟨(-(width / 2), height / 2, -(depth / 2)), (0, 1, 0), (0, 0), (0, 0, 1)⟩,
       ⟨(-(width / 2), -(height / 2), -(depth / 2)), (0, -1, 0), (0, 1), (1, 1, 0)⟩,
       ⟨(width / 2, -(height / 2), -(depth / 2)), (0, -1, 0), (1, 1), (1, 1, 0)⟩,
       ⟨(width / 2, -(height / 2), depth / 2), (0, -1, 0), (1, 0), (1, 1, 0)⟩,
       ⟨(-(width / 2), -(height / 2), depth / 2), (0, -1, 0), (0, 0), (1, 1, 0)⟩,
       ⟨(width / 2, -(height / 2), depth / 2), (1, 0, 0), (0, 1), (1, 0, 1)⟩,
       ⟨(width / 2, -(height / 2), -(depth / 2)), (1, 0, 0), (1, 1), (1, 0, 1)⟩,
       ⟨(width / 2, height / 2, -(depth / 2)), (1, 0, 0), (1, 0), (1, 0, 1)⟩,
       ⟨(width / 2, height / 2, depth / 2), (1, 0, 0), (0, 0), (1, 0, 1)⟩,
       ⟨(-(width / 2), -(height / 2), -(depth / 2)), (-1, 0, 0), (0, 1), (0, 1, 1)⟩,
       ⟨(-(width / 2), -(height / 2), depth / 2), (-1, 0, 0), (1, 1), (0, 1, 1)⟩,
       ⟨(-(width / 2), height / 2, depth / 2), (-1, 0, 0), (1, 0), (0, 1, 1)⟩,
       ⟨(-(width / 2), height / 2, -(depth / 2)), (-1, 0, 0), (0, 0), (0, 1, 1)⟩] := rfl
  have hidx : (BoxGeometry.new width height depth).indices =
      [0, 1, 2, 0, 2, 3,
       4, 5, 6, 4, 6, 7,
       8, 9, 10, 8, 10, 11,
       12, 13, 14, 12, 14, 15,
       16, 17, 18, 16, 18, 19,
       20, 21, 22, 20, 22, 23] := rfl
  have hnorm : (BoxGeometry.new width height depth).vertices.map
      Vertex.normal =
      [(0, 0, 1), (0, 0, 1), (0, 0, 1), (0, 0, 1),
       (0, 0, -1), (0, 0, -1), (0, 0, -1), (0, 0, -1),
       (0, 1, 0), (0, 1, 0), (0, 1, 0), (0, 1, 0),
       (0, -1, 0), (0, -1, 0), (0, -1, 0), (0, -1, 0),
       (1, 0, 0), (1, 0, 0), (1, 0, 0), (1, 0, 0),
       (-1, 0, 0), (-1, 0, 0), (-1, 0, 0), (-1, 0, 0)] := rfl
  refine ⟨rfl, ?_, ?_, ?_, rfl, ?_, ?_, ?_⟩
  · rw [hidx]
    decide
  · rw [hidx]
    decide
  · norm_num [boxFaceNormals]
  · intro v hv
    rw [hverts] at hv
    fin_cases hv <;> norm_num [boxFaceNormals]
  · intro n hn
    rw [hnorm]
    fin_cases hn <;> norm_num [List.count_cons]
  · intro hw hh hd
    intro j hj
    rw [hidx] at hj
    norm_num at hj
    interval_cases j
    · exact triangleCCWOutward_intro _ 0
        (-(width / 2), -(height / 2), depth / 2)
        (width / 2, -(height / 2), depth / 2)
        (width / 2, height / 2, depth / 2) (0, 0, 1) rfl rfl rfl rfl
        (by simp only [dot3, cross3, sub3, add3]
            nlinarith [mul_pos hw hh, mul_pos hw hd, mul_pos hh hd])
        (by simp only [dot3, add3]; nlinarith [hw, hh, hd])
    · exact triangleCCWOutward_intro _ 1
        (-(width / 2), -(height / 2), depth / 2)
        (width / 2, height / 2, depth / 2)
        (-(width / 2), height / 2, depth / 2) (0, 0, 1) rfl rfl rfl rfl
        (by simp only [dot3, cross3, sub3, add3]
            nlinarith [mul_pos hw hh, mul_pos hw hd, mul_pos hh hd])
        (by simp only [dot3, add3]; nlinarith [hw, hh, hd])
    · exact triangleCCWOutward_intro _ 2
        (width / 2, -(height / 2), -(depth / 2))
        (-(width / 2), -(height / 2), -(depth / 2))
        (-(width / 2), height / 2, -(depth / 2)) (0, 0, -1) rfl rfl rfl rfl
        (by simp only [dot3, cross3, sub3, add3]
            nlinarith [mul_pos hw hh, mul_pos hw hd, mul_pos hh hd])
        (by simp only [dot3, add3]; nlinarith [hw, hh, hd])
    · exact triangleCCWOutward_intro _ 3
        (width / 2, -(height / 2), -(depth / 2))
        (-(width / 2), height / 2, -(depth / 2))
        (width / 2, height / 2, -(depth / 2)) (0, 0, -1) rfl rfl rfl rfl
        (by simp only [dot3, cross3, sub3, add3]
            nlinarith [mul_pos hw hh, mul_pos hw hd, mul_pos hh hd])
        (by simp only [dot3, add3]; nlinarith [hw, hh, hd])
    · exact triangleCCWOutward_intro _ 4
        (-(width / 2), height / 2, depth / 2)
        (width / 2, height / 2, depth / 2)
        (width / 2, height / 2, -(depth / 2)) (0, 1, 0) rfl rfl rfl rfl
        (by simp only [dot3, cross3, sub3, add3]
            nlinarith [mul_pos hw hh, mul_pos hw hd, mul_pos hh hd])
        (by simp only [dot3, add3]; nlinarith [hw, hh, hd])
    · exact triangleCCWOutward_intro _ 5
        (-(width / 2), height / 2, depth / 2)
        (width / 2, height / 2, -(depth / 2))
        (-(width / 2), height / 2, -(depth / 2)) (0, 1, 0) rfl rfl rfl rfl
        (by simp only [dot3, cross3, sub3, add3]
            nlinarith [mul_pos hw hh, mul_pos hw hd, mul_pos hh hd])
        (by simp only [dot3, add3]; nlinarith [hw, hh, hd])
    · exact triangleCCWOutward_intro _ 6
        (-(width / 2), -(height / 2), -(depth / 2))
        (width / 2, -(height / 2), -(depth / 2))
        (width / 2, -(height / 2), depth / 2) (0, -1, 0) rfl rfl rfl rfl
        (by simp only [dot3, cross3, sub3, add3]
            nlinarith [mul_pos hw hh, mul_pos hw hd, mul_pos hh hd])
        (by simp only [dot3, add3]; nlinarith [hw, hh, hd])
    · exact triangleCCWOutward_intro _ 7
        (-(width / 2), -(height / 2), -(depth / 2))
        (width / 2, -(height / 2), depth / 2)
        (-(width / 2), -(height / 2), depth / 2) (0, -1, 0) rfl rfl rfl rfl
        (by simp only [dot3, cross3, sub3, add3]
            nlinarith [mul_pos hw hh, mul_pos hw hd, mul_pos hh hd])
        (by simp only [dot3, add3]; nlinarith [hw, hh, hd])
    · exact triangleCCWOutward_intro _ 8
        (width / 2, -(height / 2), depth / 2)
        (width / 2, -(height / 2), -(depth / 2))
        (width / 2, height / 2, -(depth / 2)) (1, 0, 0) rfl rfl rfl rfl
        (by simp only [dot3, cross3, sub3, add3]
            nlinarith [mul_pos hw hh, mul_pos hw hd, mul_pos hh hd])
        (by simp only [dot3, add3]; nlinarith [hw, hh, hd])
    · exact triangleCCWOutward_intro _ 9
        (width / 2, -(height / 2), depth / 2)
        (width / 2, height / 2, -(depth / 2))
        (width / 2, height / 2, depth / 2) (1, 0, 0) rfl rfl rfl rfl
        (by simp only [dot3, cross3, sub3, add3]
            nlinarith [mul_pos hw hh, mul_pos hw hd, mul_pos hh hd])
        (by simp only [dot3, add3]; nlinarith [hw, hh, hd])
    · exact triangleCCWOutward_intro _ 10
        (-(width / 2), -(height / 2), -(depth / 2))
        (-(width / 2), -(height / 2), depth / 2)
        (-(width / 2), height / 2, depth / 2) (-1, 0, 0) rfl rfl rfl rfl
        (by simp only [dot3, cross3, sub3, add3]
            nlinarith [mul_pos hw hh, mul_pos hw hd, mul_pos hh hd])
        (by simp only [dot3, add3]; nlinarith [hw, hh, hd])
    · exact triangleCCWOutward_intro _ 11
        (-(width / 2), -(height / 2), -(depth / 2))
        (-(width / 2), height / 2, depth / 2)
        (-(width / 2), height / 2, -(depth / 2)) (-1, 0, 0) rfl rfl rfl rfl
        (by simp only [dot3, cross3, sub3, add3]
            nlinarith [mul_pos hw hh, mul_pos hw hd, mul_pos hh hd])
        (by simp only [dot3, add3]; nlinarith [hw, hh, hd])

/-- Witness for the amended C8 at `(width, height, depth) = (2, 4, 6)`. -/
theorem box_geometry_winding_witness :
    (0:ℚ) < 2 ∧ (0:ℚ) < 4 ∧ (0:ℚ) < 6 ∧ ccwOutward (BoxGeometry.new 2 4 6) :=
  ⟨by norm_num, by norm_num, by norm_num,
    (box_geometry_counts_and_winding 2 4 6).2.2.2.2.2.2.2 (by norm_num)
      (by norm_num) (by norm_num)⟩

/-! ## Scene (`core_engine/scene.rs`) and Renderer (`core_engine/renderer.rs`) -/

/-- `Scene` (scene.rs:4-6): an ordered collection of meshes. -/
structure Scene where
  children : List Mesh
deriving DecidableEq, Repr

/-- One `draw_indexed(0..mesh.geometry.indices.len(), 0, 0..1)` call
(renderer.rs:305), tagged with the position of the mesh in
`scene.children`. -/
structure DrawCall where
  mesh_index : ℕ
  index_count : ℕ
deriving DecidableEq, Repr

/-- The per-mesh part of the first loop of `Renderer::render`
(renderer.rs:202-228): create vertex/index buffers if the vertex buffer is
absent, then create the uniform buffer and bind group if the uniform buffer
is absent. -/
def prepareMesh (m : Mesh) : Mesh :=
  let m1 := if m.vertex_buffer.isNone then m.create_buffers else m
  if m1.uniform_buffer.isNone then
    { m1 with
      uniform_buffer := some .uniformBuf
      bind_group := some ⟨.uniformBuf⟩ }
  else m1

/-- Indices of the meshes whose uniform buffer gets rewritten by the second
loop of `Renderer::render` (renderer.rs:246-258): visible meshes whose
uniform buffer is present.  `i` is the index of the first list element. -/
def uniformWrites (i : ℕ) : List Mesh → List ℕ
  | [] => []
  | m :: rest =>
    (if m.visible && m.uniform_buffer.isSome then [i] else []) ++
      uniformWrites (i + 1) rest

/-- Draw calls issued by the render pass loop of `Renderer::render`
(renderer.rs:293-307): meshes with all three buffer handles present, minus
the invisible ones, each drawn over its full index count. -/
def drawCalls (i : ℕ) : List Mesh → List DrawCall
  | [] => []
  | m :: rest =>
    (if m.vertex_buffer.isSome && m.index_buffer.isSome &&
        m.bind_group.isSome && m.visible then
      [⟨i, m.geometry.indices.length⟩]
    else []) ++ drawCalls (i + 1) rest

/-- Result of one `Renderer::render` call: the mutated scene contents, the
uniform-buffer writes and the draw calls. -/
structure RenderOut where
  children : List Mesh
  writes : List ℕ
  draws : List DrawCall
deriving DecidableEq, Repr

/-- `Renderer::render(&mut self, scene, camera)` (renderer.rs:200-314).
Buffer creation (first loop) happens before the surface texture is
acquired; if that acquisition fails (`surfaceOk = false`) the call returns
early with the buffers created but nothing written or drawn. -/
def render (surfaceOk : Bool) (scene : Scene) : RenderOut :=
  let prepared := scene.children.map prepareMesh
  if surfaceOk then
    { children := prepared
      writes := uniformWrites 0 prepared
      draws := drawCalls 0 prepared }
  else
    { children := prepared, writes := [], draws := [] }

/-- What `prepareMesh` does to a single mesh: lazily creates the missing
handles from the geometry, preserves the present ones, leaves the rest of
the mesh alone, and always ends with a uniform buffer present. -/
theorem prepareMesh_spec (m : Mesh) :
    (m.vertex_buffer = none →
      (prepareMesh m).vertex_buffer = some (.vertexInit m.geometry.vertices) ∧
      (prepareMesh m).index_buffer = some (.indexInit m.geometry.indices)) ∧
    (m.uniform_buffer = none →
      (prepareMesh m).uniform_buffer = some .uniformBuf ∧
      (prepareMesh m).bind_group = some ⟨.uniformBuf⟩) ∧
    (m.vertex_buffer.isSome = true →
      (prepareMesh m).vertex_buffer = m.vertex_buffer ∧
      (prepareMesh m).index_buffer = m.index_buffer) ∧
    (m.uniform_buffer.isSome = true →
      (prepareMesh m).uniform_buffer = m.uniform_buffer ∧
      (prepareMesh m).bind_group = m.bind_group) ∧
    (prepareMesh m).visible = m.visible ∧
    (prepareMesh m).geometry = m.geometry ∧
    (prepareMesh m).uniform_buffer.isSome = true := by
  unfold prepareMesh Mesh.create_buffers
  rcases m with ⟨p, r, s, vis, g, vb, ib, ub, bg⟩
  cases vb <;> cases ub <;> simp

/-- Membership in `uniformWrites`: exactly the (shifted) positions of the
visible meshes with a uniform buffer. -/
theorem mem_uniformWrites_iff (l : List Mesh) (b j : ℕ) :
    j ∈ uniformWrites b l ↔
      ∃ k, ∃ hk : k < l.length, j = b + k ∧
        (l[k].visible && l[k].uniform_buffer.isSome) = true := by
  induction l generalizing b with
  | nil => simp [uniformWrites]
  | cons m rest ih =>
    simp only [uniformWrites, List.mem_append]
    constructor
    · rintro (hj | hj)
      · by_cases hc : (m.visible && m.uniform_buffer.isSome) = true
        · rw [if_pos hc] at hj
          simp only [List.mem_singleton] at hj
          subst hj
          exact ⟨0, by simp, by omega, by simpa using hc⟩
        · rw [if_neg hc] at hj
          simp at hj
      · obtain ⟨k, hk, hjk, hcond⟩ := (ih (b + 1)).mp hj
        refine ⟨k + 1, by simpa using Nat.succ_lt_succ hk, by omega, ?_⟩
        simpa using hcond
    · rintro ⟨k, hk, hjk, hcond⟩
      cases k with
      | zero =>
        left
        simp only [List.getElem_cons_zero] at hcond
        rw [if_pos hcond]
        simp [hjk]
      | succ k' =>
        right
        have hklen : k' < rest.length := by
          simp only [List.length_cons] at hk
          omega
        refine (ih (b + 1)).mpr ⟨k', hklen, by omega, ?_⟩
        simpa using hcond

/-- Membership in `drawCalls`: exactly one draw per visible,
fully-buffered mesh, carrying its full index count. -/
theorem mem_drawCalls_iff (l : List Mesh) (b : ℕ) (dc : DrawCall) :
    dc ∈ drawCalls b l ↔
      ∃ k, ∃ hk : k < l.length, dc.mesh_index = b + k ∧
        (l[k].vertex_buffer.isSome && l[k].index_buffer.isSome &&
          l[k].bind_group.isSome && l[k].visible) = true ∧
        dc.index_count = l[k].geometry.indices.length := by
  induction l generalizing b with
  | nil => simp [drawCalls]
  | cons m rest ih =>
    simp only [drawCalls, List.mem_append]
    constructor
    · rintro (hj | hj)
      · by_cases hc : (m.vertex_buffer.isSome && m.index_buffer.isSome &&
            m.bind_group.isSome && m.visible) = true
        · rw [if_pos hc] at hj
          simp only [List.mem_singleton] at hj
          subst hj
          exact ⟨0, by simp, by simp, by simpa using hc, by simp⟩
        · rw [if_neg hc] at hj
          simp at hj
      · obtain ⟨k, hk, hjk, hcond, hcount⟩ := (ih (b + 1)).mp hj
        refine ⟨k + 1, by simpa using Nat.succ_lt_succ hk, by omega, ?_, ?_⟩
        · simpa using hcond
        · simpa using hcount
    · rintro ⟨k, hk, hjk, hcond, hcount⟩
      cases k with
      | zero =>
        left
        simp only [List.getElem_cons_zero] at hcond hcount
        rw [if_pos hcond]
        rcases dc with ⟨di, dn⟩
        dsimp only at hjk hcount
        simp only [List.mem_singleton, DrawCall.mk.injEq]
        exact ⟨by omega, hcount⟩
      | succ k' =>
        right
        have hklen : k' < rest.length := by
          simp only [List.length_cons] at hk
          omega
        refine (ih (b + 1)).mpr ⟨k', hklen, by omega, ?_, ?_⟩
        · simpa using hcond
        · simpa using hcount

/-- `prepareMesh` preserves visibility. -/
theorem prepareMesh_visible (m : Mesh) : (prepareMesh m).visible = m.visible := by
  rcases m with ⟨p, r, s, vis, g, vb, ib, ub, bg⟩
  cases vb <;> cases ub <;> simp [prepareMesh, Mesh.create_buffers]

/-- `prepareMesh` preserves the geometry. -/
theorem prepareMesh_geometry (m : Mesh) :
    (prepareMesh m).geometry = m.geometry := by
  rcases m with ⟨p, r, s, vis, g, vb, ib, ub, bg⟩
  cases vb <;> cases ub <;> simp [prepareMesh, Mesh.create_buffers]

/-- After `prepareMesh` the uniform buffer is always present. -/
theorem prepareMesh_uniform_isSome (m : Mesh) :
    (prepareMesh m).uniform_buffer.isSome = true := by
  rcases m with ⟨p, r, s, vis, g, vb, ib, ub, bg⟩
  cases vb <;> cases ub <;> simp [prepareMesh, Mesh.create_buffers]

/-- After `prepareMesh` the vertex buffer is always present. -/
theorem prepareMesh_vertex_isSome (m : Mesh) :
    (prepareMesh m).vertex_buffer.isSome = true := by
  rcases m with ⟨p, r, s, vis, g, vb, ib, ub, bg⟩
  cases vb <;> cases ub <;> simp [prepareMesh, Mesh.create_buffers]

/-- **C7.** In every `Renderer::render` call: each mesh whose vertex buffer
is absent gets vertex and index buffers created from its geometry, and each
mesh whose uniform buffer is absent gets a uniform buffer and bind group,
regardless of visibility; present handles are never replaced (creation at
most once per mesh); uniform rewrites happen exactly for the visible meshes
(when a surface texture was acquired), and an indexed draw over the full
index count is issued exactly for the visible fully-buffered meshes — in
particular never for an invisible mesh. -/
theorem renderer_lazy_buffers_and_visibility (ok : Bool) (scene : Scene) :
    (render ok scene).children.length = scene.children.length ∧
    ∀ i (h1 : i < scene.children.length)
      (h2 : i < (render ok scene).children.length),
      (scene.children[i].vertex_buffer = none →
        (render ok scene).children[i].vertex_buffer =
          some (.vertexInit scene.children[i].geometry.vertices) ∧
        (render ok scene).children[i].index_buffer =
          some (.indexInit scene.children[i].geometry.indices)) ∧
      (scene.children[i].uniform_buffer = none →
        (render ok scene).children[i].uniform_buffer = some .uniformBuf ∧
        (render ok scene).children[i].bind_group = some ⟨.uniformBuf⟩) ∧
      (scene.children[i].vertex_buffer.isSome = true →
        (render ok scene).children[i].vertex_buffer =
          scene.children[i].vertex_buffer ∧
        (render ok scene).children[i].index_buffer =
          scene.children[i].index_buffer) ∧
      (scene.children[i].uniform_buffer.isSome = true →
        (render ok scene).children[i].uniform_buffer =
          scene.children[i].uniform_buffer ∧
        (render ok scene).children[i].bind_group =
          scene.children[i].bind_group) ∧
      (render ok scene).children[i].visible = scene.children[i].visible ∧
      (i ∈ (render ok scene).writes ↔
        ok = true ∧ scene.children[i].visible = true) ∧
      ((∃ dc ∈ (render ok scene).draws, dc.mesh_index = i) ↔
        ok = true ∧ scene.children[i].visible = true ∧
        (render ok scene).children[i].index_buffer.isSome = true ∧
        (render ok scene).children[i].bind_group.isSome = true) ∧
      (∀ dc ∈ (render ok scene).draws, dc.mesh_index = i →
        dc.index_count = scene.children[i].geometry.indices.length) := by
  have hchildren : (render ok scene).children = scene.children.map prepareMesh := by
    cases ok <;> simp [render]
  have hwrites : (render ok scene).writes =
      if ok = true then uniformWrites 0 (scene.children.map prepareMesh)
      else [] := by
    cases ok <;> simp [render]
  have hdraws : (render ok scene).draws =
      if ok = true then drawCalls 0 (scene.children.map prepareMesh)
      else [] := by
    cases ok <;> simp [render]
  refine ⟨by rw [hchildren]; simp, ?_⟩
  intro i h1 h2
  have hgi : (render ok scene).children[i] = prepareMesh scene.children[i] := by
    have h3 : i < (scene.children.map prepareMesh).length := by simpa using h1
    rw [List.getElem_of_eq hchildren h2, List.getElem_map]
  obtain ⟨hcreate, hucreate, hvkeep, hukeep, hvis, hgeom, husome⟩ :=
    prepareMesh_spec scene.children[i]
  refine ⟨?_, ?_, ?_, ?_, ?_, ?_, ?_, ?_⟩
  · intro hnone
    rw [hgi]
    exact hcreate hnone
  · intro hnone
    rw [hgi]
    exact hucreate hnone
  · intro hsome
    rw [hgi]
    exact hvkeep hsome
  · intro hsome
    rw [hgi]
    exact hukeep hsome
  · rw [hgi]
    exact hvis
  · -- uniform writes happen exactly for the visible meshes
    rw [hwrites]
    cases ok with
    | false => simp
    | true =>
      rw [if_pos rfl, mem_uniformWrites_iff]
      constructor
      · rintro ⟨k, hk, hik, hcond⟩
        have hki : k = i := by omega
        subst hki
        rw [List.getElem_map] at hcond
        rw [Bool.and_eq_true] at hcond
        rw [prepareMesh_visible] at hcond
        exact ⟨rfl, hcond.1⟩
      · rintro ⟨-, hvisible⟩
        refine ⟨i, by simpa using h1, by omega, ?_⟩
        rw [List.getElem_map, Bool.and_eq_true, prepareMesh_visible]
        exact ⟨hvisible, prepareMesh_uniform_isSome _⟩
  · -- draws happen exactly for the visible fully-buffered meshes
    rw [hdraws]
    cases ok with
    | false => simp [hgi, hvis]
    | true =>
      rw [if_pos rfl]
      constructor
      · rintro ⟨dc, hdc, hdci⟩
        obtain ⟨k, hk, hik, hcond, -⟩ := (mem_drawCalls_iff _ 0 dc).mp hdc
        have hki : k = i := by omega
        subst hki
        rw [List.getElem_map] at hcond
        simp only [Bool.and_eq_true] at hcond
        rw [prepareMesh_visible] at hcond
        exact ⟨rfl, hcond.2, by rw [hgi]; exact hcond.1.1.2,
          by rw [hgi]; exact hcond.1.2⟩
      · rintro ⟨-, hvisible, hisome, hbsome⟩
        refine ⟨⟨i, (prepareMesh scene.children[i]).geometry.indices.length⟩,
          ?_, rfl⟩
        rw [mem_drawCalls_iff]
        refine ⟨i, by simpa using h1, by simp, ?_, by simp [List.getElem_map]⟩
        rw [List.getElem_map]
        simp only [Bool.and_eq_true]
        rw [prepareMesh_visible]
        refine ⟨⟨⟨prepareMesh_vertex_isSome _, ?_⟩, ?_⟩, hvisible⟩
        · rw [hgi] at hisome
          exact hisome
        · rw [hgi] at hbsome
          exact hbsome
  · -- every draw for this mesh covers the full index count
    intro dc hdc hdci
    rw [hdraws] at hdc
    cases ok with
    | false => simp at hdc
    | true =>
      rw [if_pos rfl] at hdc
      obtain ⟨k, hk, hik, -, hcount⟩ := (mem_drawCalls_iff _ 0 dc).mp hdc
      have hki : k = i := by omega
      subst hki
      rw [List.getElem_map, prepareMesh_geometry] at hcount
      exact hcount

/-- A one-mesh demo scene: a fresh mesh with no GPU handles. -/
def demoScene : Scene := ⟨[Mesh.new (Geometry.new [] [])]⟩

/-- Witness for C7: in the demo scene, the (visible) fresh mesh at index 0
has its uniform buffer rewritten by a successful render. -/
theorem renderer_lazy_witness : 0 ∈ (render true demoScene).writes :=
  (((renderer_lazy_buffers_and_visibility true demoScene).2 0 (by simp [demoScene])
    (by simp [demoScene, render])).2.2.2.2.2.1).mpr ⟨rfl, rfl⟩

/-! ## Renderer resize (`Renderer::set_size`, renderer.rs:316-340) -/

/-- The dimensions of `wgpu::SurfaceConfiguration` (the only part
`set_size` touches). -/
structure SurfaceConfig where
  width : ℕ
  height : ℕ
deriving DecidableEq, Repr

/-- Depth texture handle, recording the `Extent3d` it was created with. -/
structure DepthTexture where
  width : ℕ
  height : ℕ
deriving DecidableEq, Repr

/-- Depth texture view handle, recording the texture it views. -/
structure DepthView where
  texture : DepthTexture
deriving DecidableEq, Repr

/-- The state `Renderer::set_size` reads and writes. -/
structure RendererSize where
  config : SurfaceConfig
  depth_texture : DepthTexture
  depth_view : DepthView
deriving DecidableEq, Repr

/-- `Renderer::set_size(width, height)` (renderer.rs:316-340): guarded by
`width > 0 && height > 0`; on success updates the surface configuration and
recreates the depth texture and its view at the new size. -/
def set_size (r : RendererSize) (width height : ℕ) : RendererSize :=
  if 0 < width ∧ 0 < height then
    { config := { r.config with width := width, height := height }
      depth_texture := ⟨width, height⟩
      depth_view := ⟨⟨width, height⟩⟩ }
  else r

/-- **C9.** `Renderer::set_size(w, h)` with `w = 0` or `h = 0` leaves the
surface configuration and the depth texture/view exactly as they were; with
both positive it sets the configuration to the new dimensions and recreates
the depth texture and view at the new size. -/
theorem set_size_spec (r : RendererSize) (width height : ℕ) :
    (width = 0 ∨ height = 0 → set_size r width height = r) ∧
    (0 < width → 0 < height →
      (set_size r width height).config =
        { r.config with width := width, height := height } ∧
      (set_size r width height).depth_texture = ⟨width, height⟩ ∧
      (set_size r width height).depth_view = ⟨⟨width, height⟩⟩) := by
  constructor
  · intro hz
    rw [set_size, if_neg]
    rintro ⟨hw, hh⟩
    rcases hz with hz | hz <;> omega
  · intro hw hh
    rw [set_size, if_pos ⟨hw, hh⟩]
    exact ⟨rfl, rfl, rfl⟩

/-- Witness for C9 at a concrete renderer state: `(0, 5)` is a no-op and
`(2, 3)` reconfigures and recreates the depth texture/view. -/
theorem set_size_witness :
    set_size ⟨⟨800, 600⟩, ⟨800, 600⟩, ⟨⟨800, 600⟩⟩⟩ 0 5 =
      ⟨⟨800, 600⟩, ⟨800, 600⟩, ⟨⟨800, 600⟩⟩⟩ ∧
    (set_size ⟨⟨800, 600⟩, ⟨800, 600⟩, ⟨⟨800, 600⟩⟩⟩ 2 3).depth_texture =
      ⟨2, 3⟩ :=
  ⟨(set_size_spec _ 0 5).1 (Or.inl rfl),
    ((set_size_spec _ 2 3).2 (by norm_num) (by norm_num)).2.1⟩

/-! ## Camera (`core_engine/camera.rs`) and orbit camera controller
(`core_engine/camera_controls.rs`)

The controller's `CameraControlsState` (shared with the event listeners)
and the outer `CameraControls` fields are combined into one record; the
DOM event listeners become constructors of an input-event type, and the
listener bodies become pure state transformers. -/

/-- `Camera` (camera.rs:6-15). -/
structure Camera where
  position : Vector3
  rotation : Vector3
  fov : ℚ
  aspect : ℚ
  near : ℚ
  far : ℚ
  look_at_target : Option Vector3
deriving DecidableEq, Repr

namespace Camera

/-- `Camera::look_at(&mut self, target)` (camera.rs:38-40). -/
def look_at (c : Camera) (target : Vector3) : Camera :=
  { c with look_at_target := some target }

end Camera

/-- Combined controller state: the fields of `CameraControlsState`
(camera_controls.rs:19-36) followed by the own fields of `CameraControls`
(camera_controls.rs:38-46).  `mouse_x_raw`/`mouse_y_raw` model the source's
`_mouse_x`/`_mouse_y`. -/
structure CCState where
  displacement : ℚ × ℚ
  prev_angles : ℚ × ℚ
  current_angles : ℚ × ℚ
  final_radians : ℚ × ℚ
  down_point : ℚ × ℚ
  down : Bool
  wheel_delta : ℚ
  mouse_x : ℚ
  mouse_y : ℚ
  mouse_x_raw : ℚ
  mouse_y_raw : ℚ
  enabled : Bool
  offset : Vector3
  limits : ℚ × ℚ
  window_width : ℚ
  window_height : ℚ
  camera : Camera
  target : Vector3
  radius : ℚ
  wheel_delta_ease : ℚ
  offset_ease : Vector3
  time : ℚ
deriving DecidableEq, Repr

/-- The discrete inputs reaching the controller: the DOM events wired in
`setup_events` plus the public mutators `set_window_size` (SetViewport) and
`set_enabled`, and the per-frame `update(dt)`. -/
inductive Ev where
  | pointerDown (x y : ℚ)
  | pointerMove (x y : ℚ)
  | pointerUp (x y : ℚ)
  | wheel (deltaY x y : ℚ)
  | touchStart (x y : ℚ)
  | touchMove (x y : ℚ)
  | touchEnd (x y : ℚ)
  | update (dt : ℚ)
  | setEnabled (b : Bool)
  | setViewport (w h : ℚ)
deriving DecidableEq, Repr

/-- `mousedown` / `touchstart` closure body (camera_controls.rs:133-139 and
219-230): both set `down` and record the down point, guarded by
`enabled`. -/
def doDown (x y : ℚ) (s : CCState) : CCState :=
  if s.enabled then { s with down := true, down_point := (x, y) } else s

/-- `mouseup` / `touchend` closure body (camera_controls.rs:148-158 and
243-258): commit `prev_angles := current_angles`, record the pointer. -/
def doUp (x y : ℚ) (s : CCState) : CCState :=
  if s.enabled then
    { s with
      down := false
      prev_angles := s.current_angles
      mouse_x_raw := x
      mouse_y_raw := y
      mouse_x := x
      mouse_y := y }
  else s

/-- `mousemove` / `touchmove` closure body (camera_controls.rs:167-206 and
271-315): parallax offset always; while dragging, accumulate angles from
the displacement and clamp the pitch, rebasing `prev_angles.1` and
`down_point.1` when a clamp fires. -/
def doMove (x y : ℚ) (s : CCState) : CCState :=
  if s.enabled then
    let s1 := { s with
      offset := ⟨(x / s.window_width - 0.5) * (-30),
        (y / s.window_height - 0.5) * (-30), s.offset.z⟩ }
    if s1.down then
      let s2 := { s1 with
        displacement := ((s1.down_point.1 - x) / s1.window_width,
          (s1.down_point.2 - y) / s1.window_height) }
      let s3 := { s2 with
        current_angles := (s2.prev_angles.1 + s2.displacement.1,
          s2.prev_angles.2 - s2.displacement.2) }
      let s4 :=
        if s3.current_angles.2 > s3.limits.1 then
          { s3 with
            current_angles := (s3.current_angles.1, s3.limits.1)
            prev_angles := (s3.prev_angles.1, s3.limits.1)
            down_point := (s3.down_point.1, y) }
        else s3
      let s5 :=
        if s4.current_angles.2 < s4.limits.2 then
          { s4 with
            current_angles := (s4.current_angles.1, s4.limits.2)
            prev_angles := (s4.prev_angles.1, s4.limits.2)
            down_point := (s4.down_point.1, y) }
        else s4
      s5
    else
      { s1 with mouse_x_raw := x, mouse_y_raw := y }
  else s

/-- `wheel` closure body (camera_controls.rs:109-120). -/
def doWheel (deltaY x y : ℚ) (s : CCState) : CCState :=
  if s.enabled then
    { s with
      wheel_delta := s.wheel_delta - deltaY * 0.1
      mouse_x_raw := x
      mouse_y_raw := y
      mouse_x := x
      mouse_y := y }
  else s

/-- `CameraControls::update(&mut self, delta_time)`
(camera_controls.rs:354-385), with the statements applied in source
order. -/
def doUpdate (cs sn : ℚ → ℚ) (pi : ℚ) (dt : ℚ) (s : CCState) : CCState :=
  let s1 := { s with time := s.time + dt * 0.1 }
  let s2 := { s1 with
    final_radians :=
      (s1.final_radians.1 +
        (s1.current_angles.1 * pi * 2 - s1.final_radians.1) / 20,
       s1.final_radians.2 +
        (s1.current_angles.2 * pi * 2 - s1.final_radians.2) / 50) }
  let s3 := { s2 with
    wheel_delta_ease :=
      s2.wheel_delta_ease + (s2.wheel_delta - s2.wheel_delta_ease) / 10 }
  let s4 := { s3 with radius := s3.radius + (s3.wheel_delta - s3.radius) / 20 }
  let s5 := { s4 with
    offset_ease := ⟨s4.offset_ease.x + (s4.offset.x - s4.offset_ease.x) / 10,
      s4.offset_ease.y + (s4.offset.y - s4.offset_ease.y) / 10,
      s4.offset_ease.z + (s4.offset.z - s4.offset_ease.z) / 10⟩ }
  let s6 := { s5 with
    camera := { s5.camera with
      position :=
        ⟨(s5.target.x + s5.offset_ease.x) +
          (sn s5.final_radians.1 * cs s5.final_radians.2 * s5.radius),
         (s5.target.y + s5.offset_ease.y) +
          (sn s5.final_radians.2 * s5.radius),
         (s5.target.z + s5.offset_ease.z) +
          (cs s5.final_radians.1 * cs s5.final_radians.2 * s5.radius)⟩ } }
  let s7 := { s6 with camera := s6.camera.look_at s6.target }
  { s7 with
    mouse_x := s7.mouse_x + (s7.mouse_x_raw - s7.mouse_x) / 10
    mouse_y := s7.mouse_y + (s7.mouse_y_raw - s7.mouse_y) / 10 }

/-- Dispatch one input event into the controller (the touch handlers share
the pointer handlers' bodies; `set_window_size` (camera_controls.rs:330-334)
and `set_enabled` (camera_controls.rs:348-351) are unguarded). -/
def applyEvent (cs sn : ℚ → ℚ) (pi : ℚ) : Ev → CCState → CCState
  | .pointerDown x y, s => doDown x y s
  | .pointerMove x y, s => doMove x y s
  | .pointerUp x y, s => doUp x y s
  | .wheel d x y, s => doWheel d x y s
  | .touchStart x y, s => doDown x y s
  | .touchMove x y, s => doMove x y s
  | .touchEnd x y, s => doUp x y s
  | .update dt, s => doUpdate cs sn pi dt s
  | .setEnabled b, s => { s with enabled := b }
  | .setViewport w h, s => { s with window_width := w, window_height := h }

/-- `CameraControls::new(camera, target, radius, canvas_id)`
(camera_controls.rs:50-89), with the browser-supplied window dimensions as
parameters. -/
def initState (pi : ℚ) (camera : Camera) (target : Vector3)
    (radius window_width window_height : ℚ) : CCState :=
  { displacement := (0, 0)
    prev_angles := (0.04, 0.05)
    current_angles := (0.04, 0.05)
    final_radians := (0.04 * (pi * 2), 0.05 * (pi * 2))
    down_point := (0, 0)
    down := false
    wheel_delta := radius
    mouse_x := -1
    mouse_y := -1
    mouse_x_raw := -1
    mouse_y_raw := -1
    enabled := true
    offset := ⟨0, 0, 0⟩
    limits := (0.2, -0.2)
    window_width := window_width
    window_height := window_height
    camera := camera
    target := target
    radius := radius
    wheel_delta_ease := radius
    offset_ease := ⟨0, 0, 0⟩
    time := 0 }

/-- Fold a sequence of input events into the controller. -/
def applyEvents (cs sn : ℚ → ℚ) (pi : ℚ) (evs : List Ev) (s : CCState) :
    CCState :=
  evs.foldl (fun acc e => applyEvent cs sn pi e acc) s

/-- The move handler keeps the pitch inside the default limits, whatever
the drag magnitude: the clamp pair at the end of the drag branch forces the
result into `[-0.2, 0.2]`, and the other branches leave the pitch alone. -/
theorem doMove_pitch (x y : ℚ) (s : CCState)
    (hlim : s.limits = (0.2, -0.2))
    (hlo : -0.2 ≤ s.current_angles.2) (hhi : s.current_angles.2 ≤ 0.2) :
    (doMove x y s).limits = (0.2, -0.2) ∧
    -0.2 ≤ (doMove x y s).current_angles.2 ∧
    (doMove x y s).current_angles.2 ≤ 0.2 := by
  simp only [doMove]
  split_ifs <;> simp_all <;> linarith

/-- Every controller event preserves the default limits and the pitch
bounds. -/
theorem applyEvent_pitch_invariant (cs sn : ℚ → ℚ) (pi : ℚ) (e : Ev)
    (s : CCState) (hlim : s.limits = (0.2, -0.2))
    (hlo : -0.2 ≤ s.current_angles.2) (hhi : s.current_angles.2 ≤ 0.2) :
    (applyEvent cs sn pi e s).limits = (0.2, -0.2) ∧
    -0.2 ≤ (applyEvent cs sn pi e s).current_angles.2 ∧
    (applyEvent cs sn pi e s).current_angles.2 ≤ 0.2 := by
  cases e with
  | pointerMove x y => exact doMove_pitch x y s hlim hlo hhi
  | touchMove x y => exact doMove_pitch x y s hlim hlo hhi
  | pointerDown x y =>
    simp only [applyEvent, doDown]
    split_ifs <;> simp_all
  | touchStart x y =>
    simp only [applyEvent, doDown]
    split_ifs <;> simp_all
  | pointerUp x y =>
    simp only [applyEvent, doUp]
    split_ifs <;> simp_all
  | touchEnd x y =>
    simp only [applyEvent, doUp]
    split_ifs <;> simp_all
  | wheel d x y =>
    simp only [applyEvent, doWheel]
    split_ifs <;> simp_all
  | update dt =>
    simp only [applyEvent, doUpdate, Camera.look_at]
    simp_all
  | setEnabled b => simp_all [applyEvent]
  | setViewport w h => simp_all [applyEvent]

/-- The pitch invariant propagates through any event sequence. -/
theorem applyEvents_pitch_invariant (cs sn : ℚ → ℚ) (pi : ℚ)
    (evs : List Ev) (s : CCState) (hlim : s.limits = (0.2, -0.2))
    (hlo : -0.2 ≤ s.current_angles.2) (hhi : s.current_angles.2 ≤ 0.2) :
    (applyEvents cs sn pi evs s).limits = (0.2, -0.2) ∧
    -0.2 ≤ (applyEvents cs sn pi evs s).current_angles.2 ∧
    (applyEvents cs sn pi evs s).current_angles.2 ≤ 0.2 := by
  induction evs generalizing s with
  | nil => exact ⟨hlim, hlo, hhi⟩
  | cons e rest ih =>
    obtain ⟨hlim2, hlo2, hhi2⟩ := applyEvent_pitch_invariant cs sn pi e s hlim hlo hhi
    exact ih (applyEvent cs sn pi e s) hlim2 hlo2 hhi2

/-- **C3.** From the initial controller state (pitch `0.05` turns, limits
`(0.2, -0.2)`), after any sequence of pointer/touch/wheel/update (and even
enable/viewport) events the current pitch angle stays in `[-0.2, 0.2]`
inclusive; and whenever a clamp fires during a drag move, `prev_angles.1`
is rebased to the clamp boundary and `down_point.1` to the current pointer
`y`. -/
theorem camera_pitch_clamp (cs sn : ℚ → ℚ)
    (pi : ℚ) (camera : Camera) (target : Vector3)
    (radius window_width window_height : ℚ) :
    (∀ evs : List Ev,
      -0.2 ≤ (applyEvents cs sn pi evs
        (initState pi camera target radius window_width
          window_height)).current_angles.2 ∧
      (applyEvents cs sn pi evs
        (initState pi camera target radius window_width
          window_height)).current_angles.2 ≤ 0.2) ∧
    (∀ (s : CCState) (x y : ℚ), s.enabled = true → s.down = true →
      s.limits = (0.2, -0.2) →
      (0.2 < s.prev_angles.2 - (s.down_point.2 - y) / s.window_height →
        (applyEvent cs sn pi (.pointerMove x y) s).current_angles.2 = 0.2 ∧
        (applyEvent cs sn pi (.pointerMove x y) s).prev_angles.2 = 0.2 ∧
        (applyEvent cs sn pi (.pointerMove x y) s).down_point.2 = y) ∧
      (s.prev_angles.2 - (s.down_point.2 - y) / s.window_height < -0.2 →
        (applyEvent cs sn pi (.pointerMove x y) s).current_angles.2 = -0.2 ∧
        (applyEvent cs sn pi (.pointerMove x y) s).prev_angles.2 = -0.2 ∧
        (applyEvent cs sn pi (.pointerMove x y) s).down_point.2 = y)) := by
  constructor
  · intro evs
    exact (applyEvents_pitch_invariant cs sn pi evs _ rfl
      (by norm_num [initState]) (by norm_num [initState])).2
  · intro s x y hen hdown hlim
    constructor
    · intro hraw
      simp only [applyEvent, doMove, hen, if_true, hdown, hlim]
      split_ifs with h1 h2 <;>
        first
        | exact ⟨rfl, rfl, rfl⟩
        | exact absurd hraw h1
        | exact absurd hraw h2
        | (exfalso; simp only at h1 h2; linarith)
    · intro hraw
      simp only [applyEvent, doMove, hen, if_true, hdown, hlim]
      split_ifs with h1 h2 <;>
        first
        | exact ⟨rfl, rfl, rfl⟩
        | exact absurd hraw h1
        | exact absurd hraw h2
        | (exfalso; simp only at h1 h2; linarith)

/-- A concrete camera (75° fov, aspect 1, near 0.1, far 1000). -/
def demoCamera : Camera := ⟨⟨0, 0, 5⟩, ⟨0, 0, 0⟩, 75, 1, 1 / 10, 1000, none⟩

/-- Witness for C3: a drag of 10000 pixels down a 600-pixel window leaves
the pitch in range, and a concrete clamp-firing move rebases
`prev_angles.1` and `down_point.1`. -/
theorem camera_pitch_clamp_witness :
    (-0.2 ≤ (applyEvents csOne snZero 3
        [.pointerDown 0 0, .pointerMove 0 10000, .update 1]
        (initState 3 demoCamera ⟨0, 0, 0⟩ 5 800 600)).current_angles.2 ∧
      (applyEvents csOne snZero 3
        [.pointerDown 0 0, .pointerMove 0 10000, .update 1]
        (initState 3 demoCamera ⟨0, 0, 0⟩ 5 800 600)).current_angles.2 ≤ 0.2) ∧
    ((applyEvent csOne snZero 3 (.pointerMove 0 600)
        { initState 3 demoCamera ⟨0, 0, 0⟩ 5 800 600 with
          down := true }).current_angles.2 = 0.2 ∧
      (applyEvent csOne snZero 3 (.pointerMove 0 600)
        { initState 3 demoCamera ⟨0, 0, 0⟩ 5 800 600 with
          down := true }).prev_angles.2 = 0.2 ∧
      (applyEvent csOne snZero 3 (.pointerMove 0 600)
        { initState 3 demoCamera ⟨0, 0, 0⟩ 5 800 600 with
          down := true }).down_point.2 = 600) :=
  ⟨(camera_pitch_clamp csOne snZero 3 demoCamera ⟨0, 0, 0⟩ 5 800 600).1 _,
   ((camera_pitch_clamp csOne snZero 3 demoCamera ⟨0, 0, 0⟩ 5 800 600).2 _ 0
     600 rfl rfl rfl).1 (by norm_num [initState])⟩

/-- **C4 (amended).** While `enabled = false`, every pointer, touch and
wheel event leaves the entire controller state unchanged; `SetViewport`
(`set_window_size`), however, updates the stored window dimensions even
while disabled — it is not guarded by `enabled`. -/
theorem controls_disabled_noop (cs sn : ℚ → ℚ) (pi : ℚ) (s : CCState)
    (h : s.enabled = false) :
    (∀ x y, applyEvent cs sn pi (.pointerDown x y) s = s) ∧
    (∀ x y, applyEvent cs sn pi (.pointerMove x y) s = s) ∧
    (∀ x y, applyEvent cs sn pi (.pointerUp x y) s = s) ∧
    (∀ d x y, applyEvent cs sn pi (.wheel d x y) s = s) ∧
    (∀ x y, applyEvent cs sn pi (.touchStart x y) s = s) ∧
    (∀ x y, applyEvent cs sn pi (.touchMove x y) s = s) ∧
    (∀ x y, applyEvent cs sn pi (.touchEnd x y) s = s) ∧
    (∀ w h2, applyEvent cs sn pi (.setViewport w h2) s =
      { s with window_width := w, window_height := h2 }) := by
  refine ⟨?_, ?_, ?_, ?_, ?_, ?_, ?_, ?_⟩ <;>
    intros <;> simp [applyEvent, doDown, doUp, doMove, doWheel, h]

/-- A freshly constructed controller that has been disabled. -/
def disabledControls : CCState :=
  { initState 3 demoCamera ⟨0, 0, 0⟩ 5 800 600 with enabled := false }

/-- **C4 (counterexample).** With `enabled = false`, `SetViewport(123,456)`
(`set_window_size`) still mutates the controller state: `set_window_size`
has no `enabled` guard, so the claim that every non-SetEnabled event is a
no-op while disabled fails. -/
theorem controls_disabled_viewport_counterexample :
    applyEvent csOne snZero 3 (.setViewport 123 456) disabledControls ≠
      disabledControls := by
  intro h
  have hw := congrArg CCState.window_width h
  norm_num [applyEvent, disabledControls, initState] at hw

/-- Witness for the amended C4 at a concrete disabled state. -/
theorem controls_disabled_noop_witness :
    disabledControls.enabled = false ∧
    applyEvent csOne snZero 3 (.pointerDown 1 2) disabledControls =
      disabledControls :=
  ⟨rfl, (controls_disabled_noop csOne snZero 3 disabledControls rfl).1 1 2⟩

/-- **C5.** After every `CameraControls::update(dt)` call, the camera
position equals `target + eased_offset + radius · (sin yaw · cos pitch,
sin pitch, cos yaw · cos pitch)` evaluated at the post-smoothing
`final_radians` and eased radius, and the camera's look-at target is the
controller's target unconditionally (which `update` leaves unchanged). -/
theorem update_camera_position (cs sn : ℚ → ℚ) (pi dt : ℚ) (s : CCState) :
    (applyEvent cs sn pi (.update dt) s).camera.position =
      ⟨s.target.x + (applyEvent cs sn pi (.update dt) s).offset_ease.x +
        (applyEvent cs sn pi (.update dt) s).radius *
          (sn (applyEvent cs sn pi (.update dt) s).final_radians.1 *
            cs (applyEvent cs sn pi (.update dt) s).final_radians.2),
       s.target.y + (applyEvent cs sn pi (.update dt) s).offset_ease.y +
        (applyEvent cs sn pi (.update dt) s).radius *
          sn (applyEvent cs sn pi (.update dt) s).final_radians.2,
       s.target.z + (applyEvent cs sn pi (.update dt) s).offset_ease.z +
        (applyEvent cs sn pi (.update dt) s).radius *
          (cs (applyEvent cs sn pi (.update dt) s).final_radians.1 *
            cs (applyEvent cs sn pi (.update dt) s).final_radians.2)⟩ ∧
    (applyEvent cs sn pi (.update dt) s).camera.look_at_target =
      some s.target ∧
    (applyEvent cs sn pi (.update dt) s).target = s.target := by
  refine ⟨?_, rfl, rfl⟩
  simp only [applyEvent, doUpdate, Camera.look_at, Vector3.mk.injEq]
  refine ⟨by ring, by ring, by ring⟩

/-- **C6.** With no input applied, one `update(dt)` call leaves
`current_angles` and `wheel_delta` unchanged and scales the distances
`|current_angles·2π − final_radians|` (componentwise) and
`|wheel_delta − radius|` by exactly `19/20`, `49/50` and `19/20`, hence
makes each non-increasing: `final_radians` and `radius` approach
`current_angles·2π` and `wheel_delta` monotonically over repeated calls. -/
theorem update_damping_step (cs sn : ℚ → ℚ) (pi dt : ℚ) (s : CCState) :
    (applyEvent cs sn pi (.update dt) s).current_angles = s.current_angles ∧
    (applyEvent cs sn pi (.update dt) s).wheel_delta = s.wheel_delta ∧
    |s.current_angles.1 * pi * 2 -
        (applyEvent cs sn pi (.update dt) s).final_radians.1| =
      19 / 20 * |s.current_angles.1 * pi * 2 - s.final_radians.1| ∧
    |s.current_angles.2 * pi * 2 -
        (applyEvent cs sn pi (.update dt) s).final_radians.2| =
      49 / 50 * |s.current_angles.2 * pi * 2 - s.final_radians.2| ∧
    |s.wheel_delta - (applyEvent cs sn pi (.update dt) s).radius| =
      19 / 20 * |s.wheel_delta - s.radius| ∧
    |s.current_angles.1 * pi * 2 -
        (applyEvent cs sn pi (.update dt) s).final_radians.1| ≤
      |s.current_angles.1 * pi * 2 - s.final_radians.1| ∧
    |s.current_angles.2 * pi * 2 -
        (applyEvent cs sn pi (.update dt) s).final_radians.2| ≤
      |s.current_angles.2 * pi * 2 - s.final_radians.2| ∧
    |s.wheel_delta - (applyEvent cs sn pi (.update dt) s).radius| ≤
      |s.wheel_delta - s.radius| := by
  have h20 : ∀ t f : ℚ, |t - (f + (t - f) / 20)| = 19 / 20 * |t - f| := by
    intro t f
    rw [show t - (f + (t - f) / 20) = 19 / 20 * (t - f) by ring, abs_mul,
      abs_of_nonneg (by norm_num : (0:ℚ) ≤ 19 / 20)]
  have h50 : ∀ t f : ℚ, |t - (f + (t - f) / 50)| = 49 / 50 * |t - f| := by
    intro t f
    rw [show t - (f + (t - f) / 50) = 49 / 50 * (t - f) by ring, abs_mul,
      abs_of_nonneg (by norm_num : (0:ℚ) ≤ 49 / 50)]
  refine ⟨rfl, rfl, ?_, ?_, ?_, ?_, ?_, ?_⟩ <;>
    simp only [applyEvent, doUpdate, Camera.look_at]
  · exact h20 _ _
  · exact h50 _ _
  · exact h20 _ _
  · rw [h20]
    have := abs_nonneg (s.current_angles.1 * pi * 2 - s.final_radians.1)
    linarith
  · rw [h50]
    have := abs_nonneg (s.current_angles.2 * pi * 2 - s.final_radians.2)
    linarith
  · rw [h20]
    have := abs_nonneg (s.wheel_delta - s.radius)
    linarith

end Kansei
